import Mathlib

/-!
Shallow embedding of `src/datatransformation.py`, an AWS Lambda transform for
Kinesis Firehose records.

Modelling conventions:
* Python `str` values are Lean `String`s (sequences of unicode scalar values);
  most text processing is done on the underlying `List Char`.
* Python `bytes` values are `List Nat` with every element `< 256`.
* A Firehose record, a Python `dict`, is modelled as a structure whose fields
  are `Option`s: `none` means the key is absent.  `record.get('data')` reads
  the `Option` directly; `record['recordId']` raises `KeyError` when the key
  is absent, which (like every other Python exception) is modelled by the
  `.error` constructor of `Except String`.
* Library functions used by the source (`base64.b64decode` / `b64encode`,
  `str.decode('utf-8')` / `encode('utf-8')`, `str.split`, `str.strip`,
  `DataFrame.to_csv`) are embedded with their CPython / pandas semantics.
-/

deriving instance DecidableEq for Except

/-- The standard base64 alphabet, in order, as used by `base64.b64encode` and
`base64.b64decode`. -/
def B64_ALPHABET : List Char :=
  "ABCDEFGHIJKLMNOPQRSTUVWXYZabcdefghijklmnopqrstuvwxyz0123456789+/".data

/-- The base64 digit character of a 6-bit value. -/
def b64EncChar (n : Nat) : Char := B64_ALPHABET.getD n '?'

/-- The 6-bit value of a base64 digit character, `none` when the character is
not in the alphabet (such characters are skipped by the non-strict decoder). -/
def b64DecChar (c : Char) : Option Nat := B64_ALPHABET.findIdx? (fun a => a = c)

/-- `base64.b64encode` on a byte string, grouped three input bytes at a time
into four alphabet characters, padded with `=` (CPython `binascii.b2a_base64`).
The result is returned as the ASCII string the source obtains via
`.decode('utf-8')`. -/
def b64encodeChunks : List Nat → List Char
  | [] => []
  | [b1] => [b64EncChar (b1 / 4), b64EncChar (b1 % 4 * 16), '=', '=']
  | [b1, b2] => [b64EncChar (b1 / 4), b64EncChar (b1 % 4 * 16 + b2 / 16),
      b64EncChar (b2 % 16 * 4), '=']
  | b1 :: b2 :: b3 :: rest =>
      b64EncChar (b1 / 4) :: b64EncChar (b1 % 4 * 16 + b2 / 16) ::
      b64EncChar (b2 % 16 * 4 + b3 / 64) :: b64EncChar (b3 % 64) ::
      b64encodeChunks rest

/-- `base64.b64encode(bs).decode('utf-8')`. -/
def b64encode (bs : List Nat) : String := ⟨b64encodeChunks bs⟩

/-- The state machine of CPython's `binascii.a2b_base64` in non-strict mode
(the mode used by `base64.b64decode` with `validate=False`, the source's call):
characters outside the alphabet are skipped; a `=` is ignored before two data
characters of the current quad have been seen; once padding completes a quad
the remaining input is ignored; a final partial quad of one data character is
an invalid-length error, of two or three an incorrect-padding error.
State: remaining input, position in the current quad (0-3), pending high bits,
count of pending pad characters, accumulated output bytes (reversed). -/
def b64decodeLoop : List Char → Nat → Nat → Nat → List Nat → Except String (List Nat)
  | [], quadPos, _, _, acc =>
      if quadPos = 0 then .ok acc.reverse
      else if quadPos = 1 then
        .error "binascii.Error: Invalid base64-encoded string"
      else .error "binascii.Error: Incorrect padding"
  | c :: rest, quadPos, leftchar, pads, acc =>
      if c = '=' then
        if 2 ≤ quadPos then
          if 4 ≤ quadPos + (pads + 1) then .ok acc.reverse
          else b64decodeLoop rest quadPos leftchar (pads + 1) acc
        else b64decodeLoop rest quadPos leftchar pads acc
      else
        match b64DecChar c with
        | none => b64decodeLoop rest quadPos leftchar pads acc
        | some d =>
          match quadPos with
          | 0 => b64decodeLoop rest 1 d 0 acc
          | 1 => b64decodeLoop rest 2 (d % 16) 0 ((leftchar * 4 + d / 16) :: acc)
          | 2 => b64decodeLoop rest 3 (d % 4) 0 ((leftchar * 16 + d / 4) :: acc)
          | _ => b64decodeLoop rest 0 0 0 ((leftchar * 64 + d) :: acc)

/-- `base64.b64decode` applied to a `str` argument: the string must be pure
ASCII (else `ValueError`), then the non-strict `a2b_base64` machine runs. -/
def b64decodePy (s : String) : Except String (List Nat) :=
  if s.data.all (fun c => c.toNat < 128) then b64decodeLoop s.data 0 0 0 []
  else .error "ValueError: string argument should contain only ASCII characters"

/-- UTF-8 encoding of one unicode scalar value (`str.encode('utf-8')` acts
per character; Lean `Char` is exactly a unicode scalar value). -/
def utf8EncodeChar (c : Char) : List Nat :=
  let n := c.toNat
  if n < 0x80 then [n]
  else if n < 0x800 then [0xC0 + n / 64, 0x80 + n % 64]
  else if n < 0x10000 then [0xE0 + n / 4096, 0x80 + n / 64 % 64, 0x80 + n % 64]
  else [0xF0 + n / 262144, 0x80 + n / 4096 % 64, 0x80 + n / 64 % 64, 0x80 + n % 64]

/-- `str.encode('utf-8')` on a whole string. -/
def utf8Encode (s : List Char) : List Nat := s.flatMap utf8EncodeChar

/-- `True` when `b` is a UTF-8 continuation byte `0x80..0xBF`. -/
def utf8Cont (b : Nat) : Bool := 0x80 ≤ b && b < 0xC0

/-- Strict UTF-8 decoding, `bytes.decode('utf-8')`: rejects invalid lead
bytes, truncated sequences, overlong encodings, surrogates and values above
`0x10FFFF`; `none` models `UnicodeDecodeError`. -/
def utf8Decode : List Nat → Option (List Char)
  | [] => some []
  | b1 :: rest =>
    if b1 < 0x80 then (utf8Decode rest).map (fun cs => Char.ofNat b1 :: cs)
    else if b1 < 0xC2 then none
    else if b1 < 0xE0 then
      match rest with
      | b2 :: rest2 =>
        if utf8Cont b2 then
          (utf8Decode rest2).map (fun cs => Char.ofNat ((b1 - 0xC0) * 64 + (b2 - 0x80)) :: cs)
        else none
      | [] => none
    else if b1 < 0xF0 then
      match rest with
      | b2 :: b3 :: rest3 =>
        if (if b1 = 0xE0 then 0xA0 ≤ b2 && b2 < 0xC0
            else if b1 = 0xED then 0x80 ≤ b2 && b2 < 0xA0
            else utf8Cont b2) && utf8Cont b3 then
          (utf8Decode rest3).map (fun cs =>
            Char.ofNat ((b1 - 0xE0) * 4096 + (b2 - 0x80) * 64 + (b3 - 0x80)) :: cs)
        else none
      | _ => none
    else if b1 < 0xF5 then
      match rest with
      | b2 :: b3 :: b4 :: rest4 =>
        if (if b1 = 0xF0 then 0x90 ≤ b2 && b2 < 0xC0
            else if b1 = 0xF4 then 0x80 ≤ b2 && b2 < 0x90
            else utf8Cont b2) && utf8Cont b3 && utf8Cont b4 then
          (utf8Decode rest4).map (fun cs =>
            Char.ofNat ((b1 - 0xF0) * 262144 + (b2 - 0x80) * 4096 +
              (b3 - 0x80) * 64 + (b4 - 0x80)) :: cs)
        else none
      | _ => none
    else none

/-- Python `str.split(sep)` with an explicit one-character separator: splits
at every occurrence and keeps empty pieces (`"".split(sep) == [""]`). -/
def pySplit (sep : Char) : List Char → List (List Char)
  | [] => [[]]
  | c :: rest =>
    if c = sep then [] :: pySplit sep rest
    else
      match pySplit sep rest with
      | [] => [[c]]
      | h :: t => (c :: h) :: t

/-- Python `str.isspace` on one character, the character class that
`str.strip()` removes (`Py_UNICODE_ISSPACE`). -/
def pyIsSpace (c : Char) : Bool :=
  let n := c.toNat
  decide ((0x09 ≤ n ∧ n ≤ 0x0D) ∨ (0x1C ≤ n ∧ n ≤ 0x1F) ∨ n = 0x20 ∨
    n = 0x85 ∨ n = 0xA0 ∨ n = 0x1680 ∨ (0x2000 ≤ n ∧ n ≤ 0x200A) ∨
    n = 0x2028 ∨ n = 0x2029 ∨ n = 0x202F ∨ n = 0x205F ∨ n = 0x3000)

/-- `not line.strip()` in the source: a string strips to empty exactly when
every character is whitespace (in particular when it is empty). -/
def isBlank (l : List Char) : Bool := l.all pyIsSpace

/-- `CLICKSTREAM_LABELS = ['prev', 'curr', 'type', 'n']` (line 17). -/
def CLICKSTREAM_LABELS : List String := ["prev", "curr", "type", "n"]

/-- `DELIMITER = '\t'` (line 18). -/
def DELIMITER : Char := '\t'

/-- The per-line step of the loop in `process_record` (lines 42-57): a blank
line is skipped; otherwise the line is split on `DELIMITER` and kept exactly
when it has `len(CLICKSTREAM_LABELS)` columns. -/
def parseLine (l : List Char) : Option (List (List Char)) :=
  if isBlank l then none
  else
    let cols := pySplit DELIMITER l
    if cols.length = CLICKSTREAM_LABELS.length then some cols else none

/-- One CSV field as written by `DataFrame.to_csv` (the `csv` module with
`QUOTE_MINIMAL`, quote character `"`, `doublequote=True`, line terminator
`'\n'`): the field is quoted exactly when it contains a comma, a quote or a
newline, and embedded quotes are doubled. -/
def csvField (f : List Char) : List Char :=
  if f.any (fun c => c = ',' || c = '"' || c = '\n') then
    '"' :: f.flatMap (fun c => if c = '"' then ['"', '"'] else [c]) ++ ['"']
  else f

/-- Fields of one row joined by the comma delimiter. -/
def csvJoin : List (List Char) → List Char
  | [] => []
  | [f] => f
  | f :: rest => f ++ ',' :: csvJoin rest

/-- One CSV row: fields joined by commas, terminated by a newline. -/
def csvRow (row : List (List Char)) : List Char :=
  csvJoin (row.map csvField) ++ ['\n']

/-- `df.to_csv(header=False, index=False)` on the DataFrame built from the
kept rows (lines 60-63): no header, no index column, one line per row in
order; the empty row list serializes to the empty string. -/
def toCsvBody (rows : List (List (List Char))) : List Char :=
  rows.flatMap csvRow

/-- A Kinesis Firehose input record, a Python dict: `none` marks an absent
key. -/
structure FhRecord where
  recordId : Option String
  data : Option String
deriving DecidableEq, Repr

/-- The dict returned by `process_record` (lines 66-70 / 74-78). -/
structure OutputRecord where
  recordId : String
  result : String
  data : String
deriving DecidableEq, Repr

/-- `validate_environment_variables` (lines 20-23): raises `ValueError` when
`data_bucket` is falsy, i.e. unset (`None`, from `os.environ.get` of a
missing name) or the empty string. -/
def validate_environment_variables (data_bucket : Option String) : Except String Unit :=
  if data_bucket = none ∨ data_bucket = some "" then
    .error "ValueError: Environment variable DATA_BUCKET_NAME is not set."
  else .ok ()

/-- The `try` block of `process_record` (lines 33-70).  In source order:
`base64.b64decode(record.get('data'))` (a `TypeError` when the key is absent,
a `binascii.Error`/`ValueError` on bad input), `.decode('utf-8')`
(`UnicodeDecodeError` on invalid UTF-8), the log call reading
`record['recordId']` (a `KeyError` when absent), then the pure line loop,
DataFrame construction and CSV re-encoding, which cannot raise. -/
def tryBody (r : FhRecord) : Except String OutputRecord :=
  match r.data with
  | none => .error "TypeError: argument should be a bytes-like object or ASCII string, not NoneType"
  | some d =>
    match b64decodePy d with
    | .error e => .error e
    | .ok bytes =>
      match utf8Decode bytes with
      | none => .error "UnicodeDecodeError"
      | some text =>
        match r.recordId with
        | none => .error "KeyError: recordId"
        | some rid =>
          let rows := (pySplit '\n' text).filterMap parseLine
          .ok ⟨rid, "Ok", b64encode (utf8Encode (toCsvBody rows))⟩

/-- `process_record` (lines 25-78): the `try` block, with `except Exception`
building the `ProcessingFailed` answer from `record['recordId']` and
`record['data']` — bracket accesses that re-raise `KeyError` (modelled by
`.error`) when a key is absent. -/
def process_record (r : FhRecord) : Except String OutputRecord :=
  match tryBody r with
  | .ok out => .ok out
  | .error _ =>
    match r.recordId with
    | none => .error "KeyError: recordId"
    | some rid =>
      match r.data with
      | none => .error "KeyError: data"
      | some d => .ok ⟨rid, "ProcessingFailed", d⟩

/-- `handler` (lines 80-102): validate the environment, then process the
records of `event.get('records', [])` in order, appending each result (an
exception from `process_record` aborts the loop and propagates). The event is
modelled by its record list. -/
def handler (data_bucket : Option String) (records : List FhRecord) :
    Except String (List OutputRecord) := do
  validate_environment_variables data_bucket
  records.mapM process_record
theorem b64_table_inv : ∀ k : Fin 64, b64DecChar (b64EncChar k.val) = some k.val := by decide

theorem b64EncChar_ne_pad : ∀ k : Fin 64, b64EncChar k.val ≠ '=' := by decide

theorem b64EncChar_ascii_fin : ∀ k : Fin 64, (b64EncChar k.val).toNat < 128 := by decide

theorem b64EncChar_ascii (n : Nat) : (b64EncChar n).toNat < 128 := by
  by_cases h : n < 64
  · exact b64EncChar_ascii_fin ⟨n, h⟩
  · unfold b64EncChar
    rw [List.getD_eq_default]
    · decide
    · simp only [not_lt] at h
      calc B64_ALPHABET.length = 64 := by decide
        _ ≤ n := h

theorem b64decodeLoop_data0 (d : Nat) (hd : d < 64) (rest : List Char)
    (leftchar pads : Nat) (acc : List Nat) :
    b64decodeLoop (b64EncChar d :: rest) 0 leftchar pads acc =
      b64decodeLoop rest 1 d 0 acc := by
  have h1 : ¬(b64EncChar d = '=') := b64EncChar_ne_pad ⟨d, hd⟩
  have h2 : b64DecChar (b64EncChar d) = some d := b64_table_inv ⟨d, hd⟩
  rw [b64decodeLoop, if_neg h1, h2]

theorem b64decodeLoop_data1 (d : Nat) (hd : d < 64) (rest : List Char)
    (leftchar pads : Nat) (acc : List Nat) :
    b64decodeLoop (b64EncChar d :: rest) 1 leftchar pads acc =
      b64decodeLoop rest 2 (d % 16) 0 ((leftchar * 4 + d / 16) :: acc) := by
  have h1 : ¬(b64EncChar d = '=') := b64EncChar_ne_pad ⟨d, hd⟩
  have h2 : b64DecChar (b64EncChar d) = some d := b64_table_inv ⟨d, hd⟩
  rw [b64decodeLoop, if_neg h1, h2]

theorem b64decodeLoop_data2 (d : Nat) (hd : d < 64) (rest : List Char)
    (leftchar pads : Nat) (acc : List Nat) :
    b64decodeLoop (b64EncChar d :: rest) 2 leftchar pads acc =
      b64decodeLoop rest 3 (d % 4) 0 ((leftchar * 16 + d / 4) :: acc) := by
  have h1 : ¬(b64EncChar d = '=') := b64EncChar_ne_pad ⟨d, hd⟩
  have h2 : b64DecChar (b64EncChar d) = some d := b64_table_inv ⟨d, hd⟩
  rw [b64decodeLoop, if_neg h1, h2]

theorem b64decodeLoop_data3 (d : Nat) (hd : d < 64) (rest : List Char)
    (leftchar pads : Nat) (acc : List Nat) :
    b64decodeLoop (b64EncChar d :: rest) 3 leftchar pads acc =
      b64decodeLoop rest 0 0 0 ((leftchar * 64 + d) :: acc) := by
  have h1 : ¬(b64EncChar d = '=') := b64EncChar_ne_pad ⟨d, hd⟩
  have h2 : b64DecChar (b64EncChar d) = some d := b64_table_inv ⟨d, hd⟩
  rw [b64decodeLoop, if_neg h1, h2]

theorem b64_loop_encode : ∀ (bs : List Nat), (∀ b ∈ bs, b < 256) →
    ∀ acc : List Nat,
      b64decodeLoop (b64encodeChunks bs) 0 0 0 acc = .ok (acc.reverse ++ bs)
  | [], _, acc => by simp [b64encodeChunks, b64decodeLoop]
  | [b1], h, acc => by
      have hb1 : b1 < 256 := h b1 (by simp)
      rw [b64encodeChunks, b64decodeLoop_data0 _ (by omega),
        b64decodeLoop_data1 _ (by omega)]
      rw [show b1 / 4 * 4 + b1 % 4 * 16 / 16 = b1 from by omega]
      simp [b64decodeLoop]
  | [b1, b2], h, acc => by
      have hb1 : b1 < 256 := h b1 (by simp)
      have hb2 : b2 < 256 := h b2 (by simp)
      rw [b64encodeChunks, b64decodeLoop_data0 _ (by omega),
        b64decodeLoop_data1 _ (by omega)]
      rw [show b1 / 4 * 4 + (b1 % 4 * 16 + b2 / 16) / 16 = b1 from by omega,
        show (b1 % 4 * 16 + b2 / 16) % 16 = b2 / 16 from by omega]
      rw [b64decodeLoop_data2 _ (by omega)]
      rw [show b2 / 16 * 16 + b2 % 16 * 4 / 4 = b2 from by omega]
      simp [b64decodeLoop]
  | b1 :: b2 :: b3 :: rest, h, acc => by
      have hb1 : b1 < 256 := h b1 (by simp)
      have hb2 : b2 < 256 := h b2 (by simp)
      have hb3 : b3 < 256 := h b3 (by simp)
      rw [b64encodeChunks, b64decodeLoop_data0 _ (by omega),
        b64decodeLoop_data1 _ (by omega)]
      rw [show b1 / 4 * 4 + (b1 % 4 * 16 + b2 / 16) / 16 = b1 from by omega,
        show (b1 % 4 * 16 + b2 / 16) % 16 = b2 / 16 from by omega]
      rw [b64decodeLoop_data2 _ (by omega)]
      rw [show b2 / 16 * 16 + (b2 % 16 * 4 + b3 / 64) / 4 = b2 from by omega,
        show (b2 % 16 * 4 + b3 / 64) % 4 = b3 / 64 from by omega]
      rw [b64decodeLoop_data3 _ (by omega)]
      rw [show b3 / 64 * 64 + b3 % 64 = b3 from by omega]
      rw [b64_loop_encode rest (fun b hb => h b (by simp [hb])) (b3 :: b2 :: b1 :: acc)]
      simp

theorem b64encodeChunks_ascii : ∀ (bs : List Nat), ∀ c ∈ b64encodeChunks bs, c.toNat < 128
  | [] => by simp [b64encodeChunks]
  | [b1] => by
      intro c hc
      simp only [b64encodeChunks, List.mem_cons, List.not_mem_nil, or_false] at hc
      rcases hc with h | h | h | h <;> subst h
      · exact b64EncChar_ascii _
      · exact b64EncChar_ascii _
      · decide
      · decide
  | [b1, b2] => by
      intro c hc
      simp only [b64encodeChunks, List.mem_cons, List.not_mem_nil, or_false] at hc
      rcases hc with h | h | h | h <;> subst h
      · exact b64EncChar_ascii _
      · exact b64EncChar_ascii _
      · exact b64EncChar_ascii _
      · decide
  | b1 :: b2 :: b3 :: rest => by
      intro c hc
      simp only [b64encodeChunks, List.mem_cons] at hc
      rcases hc with h | h | h | h | h
      · subst h; exact b64EncChar_ascii _
      · subst h; exact b64EncChar_ascii _
      · subst h; exact b64EncChar_ascii _
      · subst h; exact b64EncChar_ascii _
      · exact b64encodeChunks_ascii rest c h

theorem b64decode_b64encode (bs : List Nat) (h : ∀ b ∈ bs, b < 256) :
    b64decodePy (b64encode bs) = .ok bs := by
  unfold b64decodePy b64encode
  rw [if_pos]
  · simpa using b64_loop_encode bs h []
  · simp only [List.all_eq_true, decide_eq_true_eq]
    exact b64encodeChunks_ascii bs
theorem utf8EncodeChar_lt (c : Char) : ∀ b ∈ utf8EncodeChar c, b < 256 := by
  have hv : c.toNat < 0xd800 ∨ (0xdfff < c.toNat ∧ c.toNat < 0x110000) := c.valid
  intro b hb
  simp only [utf8EncodeChar] at hb
  split at hb <;> [skip; split at hb] <;> [skip; skip; split at hb] <;>
    simp only [List.mem_cons, List.not_mem_nil, or_false] at hb <;>
    rcases hb with rfl | rfl | rfl | rfl | hb <;> omega

theorem utf8Encode_lt (s : List Char) : ∀ b ∈ utf8Encode s, b < 256 := by
  intro b hb
  simp only [utf8Encode, List.mem_flatMap] at hb
  obtain ⟨c, _, hc⟩ := hb
  exact utf8EncodeChar_lt c b hc

theorem pySplit_ne_nil (sep : Char) (s : List Char) : pySplit sep s ≠ [] := by
  induction s with
  | nil => simp [pySplit]
  | cons c rest ih =>
    simp only [pySplit]
    split
    · simp
    · split
      · simp
      · simp

theorem pySplit_sep_not_mem (sep : Char) (s : List Char) :
    ∀ l ∈ pySplit sep s, sep ∉ l := by
  induction s with
  | nil =>
    intro l hl
    simp only [pySplit, List.mem_singleton] at hl
    simp [hl]
  | cons c rest ih =>
    intro l hl
    simp only [pySplit] at hl
    by_cases hc : c = sep
    · rw [if_pos hc] at hl
      rcases List.mem_cons.mp hl with h | h
      · simp [h]
      · exact ih l h
    · rw [if_neg hc] at hl
      cases hps : pySplit sep rest with
      | nil => exact absurd hps (pySplit_ne_nil sep rest)
      | cons hd tl =>
        rw [hps] at hl
        rcases List.mem_cons.mp hl with h | h
        · subst h
          intro hmem
          rcases List.mem_cons.mp hmem with h' | h'
          · exact hc h'.symm
          · exact ih hd (by rw [hps]; exact List.mem_cons_self _ _) h'
        · exact ih l (by rw [hps]; exact List.mem_cons_of_mem _ h)

theorem pySplit_mem_chars (sep : Char) (s : List Char) :
    ∀ l ∈ pySplit sep s, ∀ c ∈ l, c ∈ s := by
  induction s with
  | nil =>
    intro l hl
    simp only [pySplit, List.mem_singleton] at hl
    simp [hl]
  | cons a rest ih =>
    intro l hl c hc
    simp only [pySplit] at hl
    by_cases ha : a = sep
    · rw [if_pos ha] at hl
      rcases List.mem_cons.mp hl with h | h
      · subst h; simp at hc
      · exact List.mem_cons_of_mem _ (ih l h c hc)
    · rw [if_neg ha] at hl
      cases hps : pySplit sep rest with
      | nil => exact absurd hps (pySplit_ne_nil sep rest)
      | cons hd tl =>
        rw [hps] at hl
        rcases List.mem_cons.mp hl with h | h
        · subst h
          rcases List.mem_cons.mp hc with h' | h'
          · simp [h']
          · exact List.mem_cons_of_mem _
              (ih hd (by rw [hps]; exact List.mem_cons_self _ _) c h')
        · exact List.mem_cons_of_mem _
            (ih l (by rw [hps]; exact List.mem_cons_of_mem _ h) c hc)

theorem csvField_not_mem_nl (f : List Char) (hf : '\n' ∉ f) : '\n' ∉ csvField f := by
  unfold csvField
  split
  · intro hmem
    rcases List.mem_cons.mp hmem with h | h
    · exact absurd h (by decide)
    · rcases List.mem_append.mp h with h' | h'
      · rw [List.mem_flatMap] at h'
        obtain ⟨c, hc, hc'⟩ := h'
        by_cases hq : c = '"'
        · rw [if_pos hq] at hc'
          rcases List.mem_cons.mp hc' with h'' | h'' <;>
            simp_all
        · rw [if_neg hq] at hc'
          rw [List.mem_singleton] at hc'
          exact hf (hc' ▸ hc)
      · rw [List.mem_singleton] at h'
        exact absurd h' (by decide)
  · exact hf

theorem csvJoin_not_mem_nl : ∀ (fs : List (List Char)),
    (∀ f ∈ fs, '\n' ∉ f) → '\n' ∉ csvJoin fs
  | [], _ => by simp [csvJoin]
  | [f], h => by simpa [csvJoin] using h f (by simp)
  | f :: g :: rest, h => by
      intro hmem
      simp only [csvJoin, List.mem_append, List.mem_cons] at hmem
      rcases hmem with h' | h' | h'
      · exact h f (by simp) h'
      · exact absurd h' (by decide)
      · exact csvJoin_not_mem_nl (g :: rest)
          (fun x hx => h x (List.mem_cons_of_mem _ hx)) h'

theorem count_nl_csvRow (row : List (List Char)) (h : ∀ f ∈ row, '\n' ∉ f) :
    List.count '\n' (csvRow row) = 1 := by
  unfold csvRow
  rw [List.count_append]
  have h0 : List.count '\n' (csvJoin (row.map csvField)) = 0 :=
    List.count_eq_zero_of_not_mem
      (csvJoin_not_mem_nl _ (by
        intro f hf
        rw [List.mem_map] at hf
        obtain ⟨g, hg, rfl⟩ := hf
        exact csvField_not_mem_nl g (h g hg)))
  rw [h0]
  decide

theorem count_nl_toCsvBody : ∀ (rows : List (List (List Char))),
    (∀ row ∈ rows, ∀ f ∈ row, '\n' ∉ f) →
    List.count '\n' (toCsvBody rows) = rows.length
  | [], _ => by simp [toCsvBody]
  | row :: rows, h => by
      have : toCsvBody (row :: rows) = csvRow row ++ toCsvBody rows := by
        simp [toCsvBody]
      rw [this, List.count_append, count_nl_csvRow row (h row (by simp)),
        count_nl_toCsvBody rows (fun r hr => h r (List.mem_cons_of_mem _ hr))]
      simp [Nat.add_comm]

theorem filterMap_parseLine (lines : List (List Char))
    (hwf : ∀ l ∈ lines, isBlank l = false → (pySplit DELIMITER l).length = 4) :
    lines.filterMap parseLine =
      (lines.filter (fun l => !isBlank l)).map (pySplit DELIMITER) := by
  induction lines with
  | nil => simp
  | cons l ls ih =>
    have ih' := ih (fun x hx hb => hwf x (List.mem_cons_of_mem _ hx) hb)
    cases hbl : isBlank l with
    | true =>
      have hp : parseLine l = none := by simp [parseLine, hbl]
      simp [List.filterMap_cons, hp, List.filter_cons, hbl, ih']
    | false =>
      have hp : parseLine l = some (pySplit DELIMITER l) := by
        simp [parseLine, hbl, CLICKSTREAM_LABELS,
          hwf l (List.mem_cons_self _ _) hbl]
      simp [List.filterMap_cons, hp, List.filter_cons, hbl, ih']
theorem except_bind_error {α β : Type} (e : String) (k : α → Except String β) :
    (Except.error e >>= k) = Except.error e := rfl

theorem except_bind_ok {α β : Type} (a : α) (k : α → Except String β) :
    (Except.ok a >>= k) = k a := rfl

theorem except_pure_eq {α : Type} (a : α) : (pure a : Except String α) = Except.ok a := rfl

theorem tryBody_ok_eq (r : FhRecord) (rid d : String) (bytes : List Nat)
    (text : List Char) (h1 : r.recordId = some rid) (h2 : r.data = some d)
    (hb : b64decodePy d = .ok bytes) (hu : utf8Decode bytes = some text) :
    tryBody r = .ok ⟨rid, "Ok",
      b64encode (utf8Encode (toCsvBody ((pySplit '\n' text).filterMap parseLine)))⟩ := by
  simp only [tryBody, h1, h2, hb, hu]

theorem tryBody_err_b64 (r : FhRecord) (d : String) (h2 : r.data = some d)
    (e : String) (hb : b64decodePy d = .error e) : tryBody r = .error e := by
  simp only [tryBody, h2, hb]

theorem tryBody_err_utf8 (r : FhRecord) (d : String) (bytes : List Nat)
    (h2 : r.data = some d) (hb : b64decodePy d = .ok bytes)
    (hu : utf8Decode bytes = none) : tryBody r = .error "UnicodeDecodeError" := by
  simp only [tryBody, h2, hb, hu]

theorem tryBody_ok_shape (r : FhRecord) (out : OutputRecord)
    (h : tryBody r = .ok out) :
    ∃ rid dat, r.recordId = some rid ∧ out = ⟨rid, "Ok", dat⟩ := by
  unfold tryBody at h
  split at h
  · exact absurd h (by simp)
  · split at h
    · exact absurd h (by simp)
    · split at h
      · exact absurd h (by simp)
      · split at h
        · exact absurd h (by simp)
        · rename_i rid hr
          exact ⟨rid, _, hr, (Except.ok.inj h).symm⟩

theorem process_record_ok_eq (r : FhRecord) (rid d : String) (bytes : List Nat)
    (text : List Char) (h1 : r.recordId = some rid) (h2 : r.data = some d)
    (hb : b64decodePy d = .ok bytes) (hu : utf8Decode bytes = some text) :
    process_record r = .ok ⟨rid, "Ok",
      b64encode (utf8Encode (toCsvBody ((pySplit '\n' text).filterMap parseLine)))⟩ := by
  simp only [process_record, tryBody_ok_eq r rid d bytes text h1 h2 hb hu]

theorem process_record_failed (r : FhRecord) (rid d : String)
    (h1 : r.recordId = some rid) (h2 : r.data = some d) (e : String)
    (htry : tryBody r = .error e) :
    process_record r = .ok ⟨rid, "ProcessingFailed", d⟩ := by
  simp only [process_record, htry, h1, h2]

theorem process_record_total (r : FhRecord) (rid d : String)
    (h1 : r.recordId = some rid) (h2 : r.data = some d) :
    ∃ res dat, process_record r = .ok ⟨rid, res, dat⟩ ∧
      (res = "Ok" ∨ res = "ProcessingFailed") := by
  cases htry : tryBody r with
  | error e =>
    exact ⟨"ProcessingFailed", d, process_record_failed r rid d h1 h2 e htry, Or.inr rfl⟩
  | ok out =>
    obtain ⟨rid', dat, hr, hout⟩ := tryBody_ok_shape r out htry
    have : rid' = rid := by rw [h1] at hr; exact (Option.some.inj hr).symm
    subst this
    refine ⟨"Ok", dat, ?_, Or.inl rfl⟩
    simp only [process_record, htry, hout]

theorem process_record_err_msgs (r : FhRecord) (e : String)
    (h : process_record r = .error e) :
    e = "KeyError: recordId" ∨ e = "KeyError: data" := by
  unfold process_record at h
  split at h
  · exact absurd h (by simp)
  · split at h
    · exact Or.inl (Except.error.inj h).symm
    · split at h
      · exact Or.inr (Except.error.inj h).symm
      · exact absurd h (by simp)

theorem handler_eq_mapM (bucket : Option String) (rs : List FhRecord)
    (hb : validate_environment_variables bucket = .ok ()) :
    handler bucket rs = rs.mapM process_record := by
  unfold handler
  rw [hb, except_bind_ok]

theorem mapM_process_record_error : ∀ (rs : List FhRecord) (e : String),
    rs.mapM process_record = .error e → ∃ r ∈ rs, process_record r = .error e
  | [], e, h => by
    rw [List.mapM_nil, except_pure_eq] at h
    exact absurd h (by simp)
  | r :: rs, e, h => by
    rw [List.mapM_cons] at h
    cases hpr : process_record r with
    | error e' =>
      rw [hpr, except_bind_error] at h
      exact ⟨r, List.mem_cons_self _ _, (Except.error.inj h) ▸ hpr⟩
    | ok out =>
      rw [hpr, except_bind_ok] at h
      cases hrest : List.mapM process_record rs with
      | error e' =>
        rw [hrest, except_bind_error] at h
        obtain ⟨r', hr', hpr'⟩ := mapM_process_record_error rs e' hrest
        exact ⟨r', List.mem_cons_of_mem _ hr', (Except.error.inj h) ▸ hpr'⟩
      | ok outs =>
        rw [hrest, except_bind_ok, except_pure_eq] at h
        exact absurd h (by simp)

theorem mapM_process_record_ok : ∀ (rs : List FhRecord),
    (∀ r ∈ rs, r.recordId ≠ none ∧ r.data ≠ none) →
    ∃ outs, rs.mapM process_record = .ok outs ∧
      outs.map (fun o => some o.recordId) = rs.map (fun r => r.recordId)
  | [], _ => ⟨[], by rw [List.mapM_nil, except_pure_eq], by simp⟩
  | r :: rs, h => by
    obtain ⟨rid, hrid⟩ := Option.ne_none_iff_exists'.mp (h r (List.mem_cons_self _ _)).1
    obtain ⟨d, hd⟩ := Option.ne_none_iff_exists'.mp (h r (List.mem_cons_self _ _)).2
    obtain ⟨res, dat, hpr, _⟩ := process_record_total r rid d hrid hd
    obtain ⟨outs, houts, hmap⟩ :=
      mapM_process_record_ok rs (fun x hx => h x (List.mem_cons_of_mem _ hx))
    refine ⟨⟨rid, res, dat⟩ :: outs, ?_, ?_⟩
    · rw [List.mapM_cons, hpr, except_bind_ok, houts, except_bind_ok, except_pure_eq]
    · simp [hmap, hrid]

/-- Claim C1: for every input event (with valid configuration and records
carrying the contract's `recordId` and `data` keys), `handler` returns one
`OutputRecord` per `InputRecord`, in the same order, with the `recordId` of
each output entry equal to the `recordId` of the input entry at the same
position, on both the `Ok` and the `ProcessingFailed` path. -/
theorem c1_batch_shape (bucket : Option String) (rs : List FhRecord)
    (hb : validate_environment_variables bucket = .ok ())
    (hr : ∀ r ∈ rs, r.recordId ≠ none ∧ r.data ≠ none) :
    ∃ outs, handler bucket rs = .ok outs ∧ outs.length = rs.length ∧
      outs.map (fun o => some o.recordId) = rs.map (fun r => r.recordId) := by
  obtain ⟨outs, houts, hmap⟩ := mapM_process_record_ok rs hr
  refine ⟨outs, ?_, ?_, hmap⟩
  · rw [handler_eq_mapM bucket rs hb, houts]
  · have := congrArg List.length hmap
    simpa using this

/-- Witness for C1 on a two-record batch hitting both the `Ok` path
(`"QQ=="`) and the `ProcessingFailed` path (`"QQ"`, bad padding). -/
theorem c1_batch_shape_witness :
    ∃ outs, handler (some "bucket") [⟨some "r1", some "QQ=="⟩, ⟨some "r2", some "QQ"⟩] = .ok outs ∧
      outs.length = 2 ∧
      outs.map (fun o => some o.recordId) = [some "r1", some "r2"] := by
  have h := c1_batch_shape (some "bucket")
    [⟨some "r1", some "QQ=="⟩, ⟨some "r2", some "QQ"⟩] (by decide) (by decide)
  simpa using h

/-- Claim C2: a record whose `data` base64-decodes to UTF-8 text all of whose
non-blank lines split into exactly 4 tab-separated fields is answered with
`result = "Ok"` and a `data` field that base64-decodes to the CSV body built
from exactly those rows, in order, with the same field content, one
comma-joined line (hence one `'\n'`) per kept row. -/
theorem c2_valid_rows (r : FhRecord) (rid d : String) (bytes : List Nat)
    (text : List Char) (h1 : r.recordId = some rid) (h2 : r.data = some d)
    (hb : b64decodePy d = .ok bytes) (hu : utf8Decode bytes = some text)
    (hwf : ∀ l ∈ pySplit '\n' text, isBlank l = false → (pySplit DELIMITER l).length = 4) :
    process_record r = .ok ⟨rid, "Ok", b64encode (utf8Encode (toCsvBody
        (((pySplit '\n' text).filter (fun l => !isBlank l)).map (pySplit DELIMITER))))⟩ ∧
    b64decodePy (b64encode (utf8Encode (toCsvBody
        (((pySplit '\n' text).filter (fun l => !isBlank l)).map (pySplit DELIMITER))))) =
      .ok (utf8Encode (toCsvBody
        (((pySplit '\n' text).filter (fun l => !isBlank l)).map (pySplit DELIMITER)))) ∧
    List.count '\n' (toCsvBody
        (((pySplit '\n' text).filter (fun l => !isBlank l)).map (pySplit DELIMITER))) =
      (((pySplit '\n' text).filter (fun l => !isBlank l)).map (pySplit DELIMITER)).length := by
  have hrows := filterMap_parseLine (pySplit '\n' text) hwf
  refine ⟨?_, b64decode_b64encode _ (utf8Encode_lt _), ?_⟩
  · have h := process_record_ok_eq r rid d bytes text h1 h2 hb hu
    rw [hrows] at h
    exact h
  · apply count_nl_toCsvBody
    intro row hrow f hf hnl
    rw [List.mem_map] at hrow
    obtain ⟨l, hl, rfl⟩ := hrow
    exact pySplit_sep_not_mem '\n' text l (List.mem_of_mem_filter hl)
      (pySplit_mem_chars DELIMITER l f hf '\n' hnl)

/-- Witness for C2: the spec's concrete scenario, payload
`"a\tb\tc\t1\nx\ty\tz\t2\n"` producing decoded body `"a,b,c,1\nx,y,z,2\n"`. -/
theorem c2_valid_rows_witness :
    process_record ⟨some "rec", some (b64encode (utf8Encode "a\tb\tc\t1\nx\ty\tz\t2\n".data))⟩ =
      .ok ⟨"rec", "Ok", b64encode (utf8Encode "a,b,c,1\nx,y,z,2\n".data)⟩ ∧
    List.count '\n' "a,b,c,1\nx,y,z,2\n".data = 2 := by
  have h := c2_valid_rows
    ⟨some "rec", some (b64encode (utf8Encode "a\tb\tc\t1\nx\ty\tz\t2\n".data))⟩
    "rec" (b64encode (utf8Encode "a\tb\tc\t1\nx\ty\tz\t2\n".data))
    (utf8Encode "a\tb\tc\t1\nx\ty\tz\t2\n".data) "a\tb\tc\t1\nx\ty\tz\t2\n".data
    rfl rfl (by decide) (by decide) (by decide)
  refine ⟨h.1.trans (by decide), ?_⟩
  have h3 := h.2.2
  rw [show toCsvBody (((pySplit '\n' "a\tb\tc\t1\nx\ty\tz\t2\n".data).filter
      (fun l => !isBlank l)).map (pySplit DELIMITER)) = "a,b,c,1\nx,y,z,2\n".data
    from by decide] at h3
  rw [h3]
  decide

/-- Claim C3: whenever the `try` block of `process_record` fails — in
particular when `data` is not valid base64 or does not decode to valid
UTF-8 — the record is answered with `result = "ProcessingFailed"` and a
`data` field identical to the original input `data`; no partial transform
output is returned. -/
theorem c3_failure_preserves (r : FhRecord) (rid d : String)
    (h1 : r.recordId = some rid) (h2 : r.data = some d)
    (hfail : (∃ e, b64decodePy d = .error e) ∨
      (∃ bytes, b64decodePy d = .ok bytes ∧ utf8Decode bytes = none) ∨
      (∃ e, tryBody r = .error e)) :
    process_record r = .ok ⟨rid, "ProcessingFailed", d⟩ := by
  have htry : ∃ e, tryBody r = .error e := by
    rcases hfail with ⟨e, he⟩ | ⟨bytes, hby, hu⟩ | h
    · exact ⟨e, tryBody_err_b64 r d h2 e he⟩
    · exact ⟨_, tryBody_err_utf8 r d bytes h2 hby hu⟩
    · exact h
  obtain ⟨e, he⟩ := htry
  exact process_record_failed r rid d h1 h2 e he

/-- Witness for C3: `"QQ"` is invalid base64 (incorrect padding) and is
returned unchanged with `ProcessingFailed`. -/
theorem c3_failure_preserves_witness :
    process_record ⟨some "r3", some "QQ"⟩ = .ok ⟨"r3", "ProcessingFailed", "QQ"⟩ :=
  c3_failure_preserves _ "r3" "QQ" rfl rfl
    (Or.inl ⟨"binascii.Error: Incorrect padding", by decide⟩)

/-- Claim C4: `process_record` never propagates an exception for an input
record (one carrying the contract's `recordId` and `data` keys): it always
returns an `OutputRecord` with the input's `recordId` and a `result` of
either `"Ok"` or `"ProcessingFailed"`. -/
theorem c4_no_raise (r : FhRecord) (rid d : String)
    (h1 : r.recordId = some rid) (h2 : r.data = some d) :
    ∃ out, process_record r = .ok out ∧ out.recordId = rid ∧
      (out.result = "Ok" ∨ out.result = "ProcessingFailed") := by
  obtain ⟨res, dat, hpr, hres⟩ := process_record_total r rid d h1 h2
  exact ⟨⟨rid, res, dat⟩, hpr, rfl, hres⟩

/-- Witness for C4 on a record whose `data` is not even near-valid base64. -/
theorem c4_no_raise_witness :
    ∃ out, process_record ⟨some "id4", some "%%%"⟩ = .ok out ∧ out.recordId = "id4" ∧
      (out.result = "Ok" ∨ out.result = "ProcessingFailed") :=
  c4_no_raise _ "id4" "%%%" rfl rfl

/-- Claim C5: a line whose tab-split field count is not 4 is dropped
(`parseLine` yields `none`), and a record whose decoded payload consists
entirely of such malformed (or blank) lines is answered `Ok` with an empty
decoded output body (the empty string encodes to `""`). -/
theorem c5_malformed_dropped :
    (∀ l : List Char, (pySplit DELIMITER l).length ≠ 4 → parseLine l = none) ∧
    (∀ (r : FhRecord) (rid d : String) (bytes : List Nat) (text : List Char),
      r.recordId = some rid → r.data = some d →
      b64decodePy d = .ok bytes → utf8Decode bytes = some text →
      (∀ l ∈ pySplit '\n' text, isBlank l = true ∨ (pySplit DELIMITER l).length ≠ 4) →
      process_record r = .ok ⟨rid, "Ok", ""⟩) := by
  constructor
  · intro l hl
    unfold parseLine
    split
    · rfl
    · simp [CLICKSTREAM_LABELS, hl]
  · intro r rid d bytes text h1 h2 hb hu hml
    have hrows : (pySplit '\n' text).filterMap parseLine = [] := by
      rw [List.filterMap_eq_nil_iff]
      intro l hl
      rcases hml l hl with hbl | hcnt
      · simp [parseLine, hbl]
      · unfold parseLine
        split
        · rfl
        · simp [CLICKSTREAM_LABELS, hcnt]
    have h := process_record_ok_eq r rid d bytes text h1 h2 hb hu
    rw [hrows] at h
    rwa [show b64encode (utf8Encode (toCsvBody [])) = "" from by decide] at h

/-- Witness for C5: `"badline"` has 1 field; a payload of only malformed and
blank lines comes back `Ok` with empty body. -/
theorem c5_malformed_dropped_witness :
    parseLine "badline".data = none ∧
    process_record ⟨some "r5", some (b64encode (utf8Encode "badline\nx\ty\n\n".data))⟩ =
      .ok ⟨"r5", "Ok", ""⟩ := by
  refine ⟨c5_malformed_dropped.1 "badline".data (by decide), ?_⟩
  exact c5_malformed_dropped.2 _ "r5"
    (b64encode (utf8Encode "badline\nx\ty\n\n".data))
    (utf8Encode "badline\nx\ty\n\n".data) "badline\nx\ty\n\n".data rfl rfl
    (by decide) (by decide) (by decide)

/-- Claim C6: a missing or empty `DATA_BUCKET_NAME` makes `handler` raise the
configuration `ValueError` for the whole batch — uniformly in the records,
i.e. before any record is processed — while a present non-empty value
validates successfully and can never surface the configuration error. -/
theorem c6_config (bucket : Option String) (rs : List FhRecord) :
    ((bucket = none ∨ bucket = some "") →
      handler bucket rs =
        .error "ValueError: Environment variable DATA_BUCKET_NAME is not set.") ∧
    (∀ s, bucket = some s → s ≠ "" →
      validate_environment_variables bucket = .ok () ∧
      ∀ e, handler bucket rs = .error e →
        e ≠ "ValueError: Environment variable DATA_BUCKET_NAME is not set.") := by
  constructor
  · intro hbad
    unfold handler validate_environment_variables
    rw [if_pos hbad, except_bind_error]
  · intro s hs hne
    have hval : validate_environment_variables bucket = .ok () := by
      have hc : ¬(bucket = none ∨ bucket = some "") := by
        subst hs
        simp [hne]
      unfold validate_environment_variables
      rw [if_neg hc]
    refine ⟨hval, ?_⟩
    intro e he
    rw [handler_eq_mapM bucket rs hval] at he
    obtain ⟨r, _, hpr⟩ := mapM_process_record_error rs e he
    rcases process_record_err_msgs r e hpr with rfl | rfl <;> decide

/-- Witness for C6: `handler` fails on an absent bucket, validates a
non-empty one, and a per-record `KeyError` is not the configuration error. -/
theorem c6_config_witness :
    handler none [] = .error "ValueError: Environment variable DATA_BUCKET_NAME is not set." ∧
    validate_environment_variables (some "my-bucket") = .ok () ∧
    "KeyError: recordId" ≠ "ValueError: Environment variable DATA_BUCKET_NAME is not set." := by
  refine ⟨(c6_config none []).1 (Or.inl rfl),
    ((c6_config (some "my-bucket") []).2 "my-bucket" rfl (by decide)).1, ?_⟩
  exact ((c6_config (some "my-bucket") [⟨none, none⟩]).2 "my-bucket" rfl (by decide)).2
    "KeyError: recordId" (by decide)

/-- Claim C7, counterexample: decode-then-encode is NOT the identity on
arbitrary strings. `"QR=="` base64-decodes (non-strict mode drops the unused
trailing bits of `R`) to the byte `65`, which re-encodes to `"QQ=="`. -/
theorem c7_encode_decode_counterexample :
    b64decodePy "QR==" = .ok [65] ∧ b64encode [65] = "QQ==" ∧
    ¬(∀ (s : String) (bs : List Nat), b64decodePy s = .ok bs → b64encode bs = s) := by
  refine ⟨by decide, by decide, fun h => ?_⟩
  have hq := h "QR==" [65] (by decide)
  rw [show b64encode [65] = "QQ==" from by decide] at hq
  exact absurd hq (by decide)

/-- Claim C7, amended: the round trip in the other order — base64-encoding a
byte string and then decoding — is the identity on arbitrary byte strings. -/
theorem c7_decode_encode_id (bs : List Nat) (h : ∀ b ∈ bs, b < 256) :
    b64decodePy (b64encode bs) = .ok bs :=
  b64decode_b64encode bs h

/-- Witness for the amended C7 at a concrete byte string. -/
theorem c7_decode_encode_id_witness :
    b64decodePy (b64encode [0, 255, 100, 7]) = .ok [0, 255, 100, 7] :=
  c7_decode_encode_id [0, 255, 100, 7] (by decide)

/-- Claim C8: an empty or whitespace-only line is skipped and produces no
output row, even when — like `"\t\t\t"` — it would tab-split into exactly 4
(empty) fields; yet empty strings are valid field content on lines that are
not whitespace-only, as `"a\t\t\t"` shows, both in isolation and through
`process_record`. -/
theorem c8_blank_lines :
    (∀ l : List Char, isBlank l = true → parseLine l = none) ∧
    (pySplit DELIMITER "\t\t\t".data).length = 4 ∧
    isBlank "\t\t\t".data = true ∧
    parseLine "\t\t\t".data = none ∧
    parseLine "a\t\t\t".data = some [['a'], [], [], []] ∧
    process_record ⟨some "r8", some (b64encode (utf8Encode "\t\t\t\na\t\t\t\n".data))⟩ =
      .ok ⟨"r8", "Ok", b64encode (utf8Encode "a,,,\n".data)⟩ := by
  refine ⟨?_, by decide, by decide, by decide, by decide, by decide⟩
  intro l hl
  simp [parseLine, hl]

/-- Witness for C8 at a whitespace-only line of mixed blanks. -/
theorem c8_blank_lines_witness : parseLine [' ', '\t', ' '] = none :=
  c8_blank_lines.1 [' ', '\t', ' '] (by decide)

/-- Claim C9: the batch output does not depend on the value of
`DATA_BUCKET_NAME`, only on its presence: for any two non-empty values,
`handler` returns identical output on the same event. -/
theorem c9_bucket_noninterference (s1 s2 : String) (h1 : s1 ≠ "") (h2 : s2 ≠ "")
    (rs : List FhRecord) :
    handler (some s1) rs = handler (some s2) rs := by
  have v1 : validate_environment_variables (some s1) = .ok () := by
    unfold validate_environment_variables
    rw [if_neg]
    simp [h1]
  have v2 : validate_environment_variables (some s2) = .ok () := by
    unfold validate_environment_variables
    rw [if_neg]
    simp [h2]
  rw [handler_eq_mapM _ _ v1, handler_eq_mapM _ _ v2]

/-- Witness for C9 with two different non-empty bucket names. -/
theorem c9_bucket_noninterference_witness :
    handler (some "a") [⟨some "x", some "QQ=="⟩] =
      handler (some "bb") [⟨some "x", some "QQ=="⟩] :=
  c9_bucket_noninterference "a" "bb" (by decide) (by decide) _

/-- Claim C10: a record with a `recordId` whose `data` is valid base64 of
valid UTF-8 text is always answered `Ok`; under this precondition the
`ProcessingFailed` branch is unreachable, whatever the decoded text. -/
theorem c10_valid_never_fails (r : FhRecord) (rid d : String) (bytes : List Nat)
    (text : List Char) (h1 : r.recordId = some rid) (h2 : r.data = some d)
    (hb : b64decodePy d = .ok bytes) (hu : utf8Decode bytes = some text) :
    ∃ dat, process_record r = .ok ⟨rid, "Ok", dat⟩ :=
  ⟨_, process_record_ok_eq r rid d bytes text h1 h2 hb hu⟩

/-- Witness for C10 on a payload of malformed, delimiter-heavy and blank
lines. -/
theorem c10_valid_never_fails_witness :
    ∃ dat, process_record ⟨some "r10",
        some (b64encode (utf8Encode "\t\t\t\t\t\nno tabs here\n\n".data))⟩ =
      .ok ⟨"r10", "Ok", dat⟩ :=
  c10_valid_never_fails _ "r10"
    (b64encode (utf8Encode "\t\t\t\t\t\nno tabs here\n\n".data))
    (utf8Encode "\t\t\t\t\t\nno tabs here\n\n".data)
    "\t\t\t\t\t\nno tabs here\n\n".data rfl rfl (by decide) (by decide)
